import Mathlib

/-!
Shallow embedding of the `elf2tab` repository file `src/header.rs` (the TBF header builder).

Bytes are modelled as `Nat` values; every byte emitted by the serializers is
reduced `% 256`, and multi-byte fields are laid out little-endian exactly as
the `repr(C)` structs of the source are (u16/u32 fields, no implicit padding
in any of the TBF structs).  Machine-integer truncations of the source
(`as u16`, `as u32`) appear as explicit `% 65536` / `% 4294967296`.

The `util` module of the repository is not part of the provided sources, so
its three helpers are modelled from the spec (each is marked as such in its
doc comment).  The SHA3-256 digest comes from an external crate; following
the spec it is treated as a pluggable capability and passed to `create` as a
function argument.
-/

namespace Elf2Tab

/-- Modelled from the spec: `util::amount_alignment_needed`, the alignment
utility missing from the provided sources.  Number of padding bytes bringing
`len` up to the next multiple of `alignment` (zero when already aligned). -/
def amount_alignment_needed (len alignment : Nat) : Nat :=
  (alignment - len % alignment) % alignment

/-- Little-endian byte serialization of a 16-bit field, as laid down by the
byte-layout table of the spec for `util::as_byte_slice` on `repr(C)` structs. -/
def u16le (n : Nat) : List Nat := [n % 256, n / 256 % 256]

/-- Little-endian byte serialization of a 32-bit field. -/
def u32le (n : Nat) : List Nat :=
  [n % 256, n / 256 % 256, n / 65536 % 256, n / 16777216 % 256]

/-- Model of `TbfHeaderTlv` of the source: a TLV prefix, `tipe` and `length` both u16.
TLV type numbers: 1 = Main, 2 = WriteableFlashRegions, 3 = PackageName,
5 = FixedAddresses. -/
structure TbfHeaderTlv where
  tipe : Nat
  length : Nat
deriving DecidableEq, Repr

/-- Model of `TbfHeaderBase` of the source (16 bytes when serialized). -/
structure TbfHeaderBase where
  version : Nat
  header_size : Nat
  total_size : Nat
  flags : Nat
  checksum : Nat
deriving DecidableEq, Repr

/-- Model of `TbfHeaderMain` of the source (20 bytes when serialized). -/
structure TbfHeaderMain where
  base : TbfHeaderTlv
  init_fn_offset : Nat
  protected_size : Nat
  minimum_ram_size : Nat
  app_id : Nat
deriving DecidableEq, Repr

/-- Model of `TbfHeaderWriteableFlashRegion` of the source (12 bytes when serialized). -/
structure TbfHeaderWriteableFlashRegion where
  base : TbfHeaderTlv
  offset : Nat
  size : Nat
deriving DecidableEq, Repr

/-- Model of `TbfHeaderFixedAddresses` of the source (12 bytes when serialized). -/
structure TbfHeaderFixedAddresses where
  base : TbfHeaderTlv
  start_process_ram : Nat
  start_process_flash : Nat
deriving DecidableEq, Repr

/-- Modelled from the spec: field-by-field little-endian serialization of a
TLV prefix (`util::as_byte_slice` applied to `TbfHeaderTlv`). -/
def serializeTlv (t : TbfHeaderTlv) : List Nat :=
  u16le t.tipe ++ u16le t.length

/-- Modelled from the spec: serialization of the base header
(`util::as_byte_slice` applied to `TbfHeaderBase`). -/
def serializeBase (b : TbfHeaderBase) : List Nat :=
  u16le b.version ++ u16le b.header_size ++ u32le b.total_size ++
    u32le b.flags ++ u32le b.checksum

/-- Modelled from the spec: serialization of the main TLV
(`util::as_byte_slice` applied to `TbfHeaderMain`). -/
def serializeMain (m : TbfHeaderMain) : List Nat :=
  serializeTlv m.base ++ u32le m.init_fn_offset ++ u32le m.protected_size ++
    u32le m.minimum_ram_size ++ u32le m.app_id

/-- Modelled from the spec: serialization of one writeable-flash-region TLV. -/
def serializeWfr (w : TbfHeaderWriteableFlashRegion) : List Nat :=
  serializeTlv w.base ++ u32le w.offset ++ u32le w.size

/-- Modelled from the spec: serialization of the fixed-addresses TLV. -/
def serializeFixed (x : TbfHeaderFixedAddresses) : List Nat :=
  serializeTlv x.base ++ u32le x.start_process_ram ++ u32le x.start_process_flash

/-- Model of `TbfHeader` of the source: the Field Store.  `package_name` holds the
bytes of the Rust `String` (hence each entry is `< 256` for states produced
by the real program). -/
structure TbfHeader where
  hdr_base : TbfHeaderBase
  hdr_main : TbfHeaderMain
  hdr_pkg_name_tlv : Option TbfHeaderTlv
  hdr_wfr : List TbfHeaderWriteableFlashRegion
  hdr_fixed_addresses : Option TbfHeaderFixedAddresses
  package_name : List Nat
  package_name_pad : Nat
deriving DecidableEq, Repr

/-- Model of `TbfHeader::new` of the source. -/
def TbfHeader.new : TbfHeader where
  hdr_base := ⟨2, 0, 0, 0, 0⟩
  hdr_main := ⟨⟨1, 16⟩, 0, 0, 0, 0⟩
  hdr_pkg_name_tlv := none
  hdr_wfr := []
  hdr_fixed_addresses := none
  package_name := []
  package_name_pad := 0

/-- The word-combination step of the loop in `inject_checksum`: the first
`count ≤ 4` bytes read are OR-ed into a word at bit positions `8*i`,
zero-extending when fewer than four bytes remain. -/
def leWord : List Nat → Nat
  | a :: b :: c :: d :: _ => a ||| b <<< 8 ||| c <<< 16 ||| d <<< 24
  | [a, b, c] => a ||| b <<< 8 ||| c <<< 16
  | [a, b] => a ||| b <<< 8
  | [a] => a
  | [] => 0

/-- The XOR-fold loop of `inject_checksum`: the buffer is consumed four bytes
at a time, each chunk combined little-endian into a word and XOR-ed into the
running checksum; a final short read is zero-extended (and a final empty read
XORs 0, so it is dropped here). -/
def xorWords : List Nat → Nat
  | a :: b :: c :: d :: rest =>
      (a ||| b <<< 8 ||| c <<< 16 ||| d <<< 24) ^^^ xorWords rest
  | l => leWord l

/-- Model of `TbfHeader::inject_checksum` of the source: XOR-fold the buffer, then
overwrite bytes 12..16 with the little-endian bytes of the checksum
(`checksum & 0xFF`, `(checksum >> 8) & 0xFF`, ...).  The cursor write at
position 12 overwrites in place because every buffer handed to it holds at
least the 36-byte base + main prefix. -/
def inject_checksum (header_buf : List Nat) : List Nat :=
  let checksum := xorWords header_buf
  header_buf.take 12 ++
    [checksum &&& 255, (checksum >>> 8) &&& 255,
     (checksum >>> 16) &&& 255, (checksum >>> 24) &&& 255] ++
    header_buf.drop 16

/-- The package-name section written by `generate`: TLV prefix, name bytes
and the stored padding, emitted only when the name is non-empty. -/
def TbfHeader.name_section (h : TbfHeader) : List Nat :=
  if h.package_name = [] then []
  else h.hdr_pkg_name_tlv.elim [] serializeTlv ++ h.package_name ++
    List.replicate h.package_name_pad 0

/-- The writeable-flash-region section: the TLV of every slot in creation order. -/
def TbfHeader.wfr_section (h : TbfHeader) : List Nat :=
  (h.hdr_wfr.map serializeWfr).flatten

/-- The fixed-addresses section, emitted only when present. -/
def TbfHeader.fixed_section (h : TbfHeader) : List Nat :=
  h.hdr_fixed_addresses.elim [] serializeFixed

/-- The section bytes written by `TbfHeader::generate` before the final
alignment padding: base header, main TLV, package-name TLV + name bytes +
stored name padding (only when the name is non-empty), each
writeable-flash-region TLV in slot order, then the fixed-addresses TLV when
present. -/
def TbfHeader.header_sections (h : TbfHeader) : List Nat :=
  serializeBase h.hdr_base ++ serializeMain h.hdr_main ++ h.name_section ++
    h.wfr_section ++ h.fixed_section

/-- The buffer of `TbfHeader::generate` just before checksum injection: the
section bytes followed by `do_pad` of `amount_alignment_needed` zero bytes
(`current_length as u32` is the explicit `% 4294967296`).  `util::do_pad`
is modelled from the spec: it appends the requested number of zero bytes. -/
def TbfHeader.generate_body (h : TbfHeader) : List Nat :=
  let buf := h.header_sections
  buf ++ List.replicate (amount_alignment_needed (buf.length % 4294967296) 4) 0

/-- Model of `TbfHeader::generate` of the source: serialize all sections, pad to a
4-byte boundary, inject the checksum.  (The `io::Result` wrapper is dropped:
all writes target an in-memory buffer and always succeed.) -/
def TbfHeader.generate (h : TbfHeader) : List Nat :=
  inject_checksum h.generate_body

/-- Model of `TbfHeader::create` of the source.  `sha3` is the externally supplied
SHA3-256 digest capability (input bytes to 32 digest bytes); the loop
`hasher.update` runs only for a non-empty name, so the digest input is the
name when non-empty and the empty byte string otherwise.  Returns the
updated header together with the measured length of the generated buffer,
exactly as the source returns `generate().get_ref().len()`. -/
def TbfHeader.create (self : TbfHeader) (sha3 : List Nat → List Nat)
    (minimum_ram_size writeable_flash_regions : Nat) (package_name : List Nat)
    (fixed_address_ram fixed_address_flash app_id : Option Nat) :
    TbfHeader × Nat :=
  let hl0 := 16 + 20
  let pad : Nat :=
    if package_name = [] then 0
    else amount_alignment_needed ((hl0 + 4 + package_name.length) % 4294967296) 4
  let hl1 :=
    if package_name = [] then hl0 else hl0 + 4 + package_name.length + pad
  let hl2 := hl1 + 12 * writeable_flash_regions
  let header_length :=
    if fixed_address_ram.isSome || fixed_address_flash.isSome then hl2 + 12
    else hl2
  let digest := sha3 (if package_name = [] then [] else package_name)
  let new_app_id :=
    match app_id with
    | some v => v
    | none =>
        digest.getD 0 0 ||| (digest.getD 1 0) <<< 8 |||
          (digest.getD 2 0) <<< 16 ||| (digest.getD 3 0) <<< 24
  let h : TbfHeader :=
    { hdr_base :=
        { self.hdr_base with header_size := header_length % 65536, flags := 1 },
      hdr_main :=
        { self.hdr_main with
            minimum_ram_size := minimum_ram_size, app_id := new_app_id },
      hdr_pkg_name_tlv :=
        if package_name = [] then self.hdr_pkg_name_tlv
        else some ⟨3, package_name.length % 65536⟩,
      hdr_wfr :=
        self.hdr_wfr ++
          List.replicate writeable_flash_regions ⟨⟨2, 8⟩, 0, 0⟩,
      hdr_fixed_addresses :=
        if fixed_address_ram.isSome || fixed_address_flash.isSome then
          some ⟨⟨5, 8⟩, fixed_address_ram.getD 4294967295,
            fixed_address_flash.getD 4294967295⟩
        else self.hdr_fixed_addresses,
      package_name := package_name,
      package_name_pad := pad }
  (h, h.generate.length)

/-- Model of `TbfHeader::set_protected_size` of the source. -/
def TbfHeader.set_protected_size (h : TbfHeader) (protected_size : Nat) :
    TbfHeader :=
  { h with hdr_main := { h.hdr_main with protected_size := protected_size } }

/-- Model of `TbfHeader::set_total_size` of the source. -/
def TbfHeader.set_total_size (h : TbfHeader) (total_size : Nat) : TbfHeader :=
  { h with hdr_base := { h.hdr_base with total_size := total_size } }

/-- Model of `TbfHeader::set_init_fn_offset` of the source. -/
def TbfHeader.set_init_fn_offset (h : TbfHeader) (init_fn_offset : Nat) :
    TbfHeader :=
  { h with hdr_main := { h.hdr_main with init_fn_offset := init_fn_offset } }

/-- The slot-filling loop of `set_writeable_flash_region_values`: walk the
slots in creation order and overwrite offset and size of the first slot
whose size is still zero, leaving everything else untouched. -/
def setWfrValues (o s : Nat) :
    List TbfHeaderWriteableFlashRegion → List TbfHeaderWriteableFlashRegion
  | [] => []
  | w :: rest =>
      if w.size = 0 then { w with offset := o, size := s } :: rest
      else w :: setWfrValues o s rest

/-- Model of `TbfHeader::set_writeable_flash_region_values` of the source. -/
def TbfHeader.set_writeable_flash_region_values (h : TbfHeader)
    (offset size : Nat) : TbfHeader :=
  { h with hdr_wfr := setWfrValues offset size h.hdr_wfr }

/-- Little-endian read of a 16-bit value at byte offset `i` of a buffer
(observation function for stating claims; absent bytes read as 0). -/
def readU16 (buf : List Nat) (i : Nat) : Nat :=
  buf.getD i 0 + 256 * buf.getD (i + 1) 0

/-- Little-endian read of a 32-bit value at byte offset `i` of a buffer. -/
def readU32 (buf : List Nat) (i : Nat) : Nat :=
  buf.getD i 0 + 256 * buf.getD (i + 1) 0 + 65536 * buf.getD (i + 2) 0 +
    16777216 * buf.getD (i + 3) 0

/-- One post-creation mutation of the Field Store: the four setters. -/
inductive Mutation where
  | protectedSize (v : Nat)
  | totalSize (v : Nat)
  | initFnOffset (v : Nat)
  | wfrValues (o s : Nat)
deriving DecidableEq, Repr

/-- Apply one mutation to a header. -/
def applyMutation (h : TbfHeader) : Mutation → TbfHeader
  | .protectedSize v => h.set_protected_size v
  | .totalSize v => h.set_total_size v
  | .initFnOffset v => h.set_init_fn_offset v
  | .wfrValues o s => h.set_writeable_flash_region_values o s

/-- Apply a sequence of mutations in order. -/
def applyMutations (h : TbfHeader) (ms : List Mutation) : TbfHeader :=
  ms.foldl applyMutation h

/-- Header states reachable through the public API: `new`, then `create`
with a package name made of genuine bytes (a Rust `String` only yields bytes
below 256), then any sequence of setter calls. -/
def Reachable (h : TbfHeader) : Prop :=
  ∃ (sha3 : List Nat → List Nat) (minimum_ram_size writeable_flash_regions : Nat)
    (package_name : List Nat)
    (fixed_address_ram fixed_address_flash app_id : Option Nat)
    (ms : List Mutation),
    (∀ b ∈ package_name, b < 256) ∧
    h = applyMutations
          (TbfHeader.new.create sha3 minimum_ram_size writeable_flash_regions
            package_name fixed_address_ram fixed_address_flash app_id).1 ms

/-! Bitwise helper lemmas for the checksum words. -/

/-- OR of two bit-disjoint ranges is addition. -/
theorem or_shl_eq_add {x : Nat} (y k : Nat) (h : x < 2 ^ k) :
    x ||| y <<< k = x + y * 2 ^ k := by
  rw [Nat.shiftLeft_eq, Nat.lor_comm, Nat.mul_comm, ← Nat.mul_add_lt_is_or h]
  omega

/-- The little-endian word built by the checksum loop, additively. -/
theorem word_eq_add {a b c : Nat} (d : Nat) (ha : a < 256) (hb : b < 256)
    (hc : c < 256) :
    a ||| b <<< 8 ||| c <<< 16 ||| d <<< 24 =
      a + 256 * b + 65536 * c + 16777216 * d := by
  rw [or_shl_eq_add b 8 (by omega)]
  rw [or_shl_eq_add c 16 (by omega)]
  rw [or_shl_eq_add d 24 (by omega)]
  ring

/-- A checksum word built from genuine bytes fits in 32 bits. -/
theorem word_lt {a b c d : Nat} (ha : a < 256) (hb : b < 256) (hc : c < 256)
    (hd : d < 256) :
    a ||| b <<< 8 ||| c <<< 16 ||| d <<< 24 < 4294967296 := by
  rw [word_eq_add d ha hb hc]
  omega

/-- The word the checksum loop builds over the four serialized bytes of a 32-bit
value recovers that value modulo `2^32`. -/
theorem word_u32le (n : Nat) :
    n % 256 ||| (n / 256 % 256) <<< 8 ||| (n / 65536 % 256) <<< 16 |||
      (n / 16777216 % 256) <<< 24 = n % 4294967296 := by
  rw [word_eq_add (n / 16777216 % 256) (by omega) (by omega) (by omega)]
  omega

/-- Unfolding equation for the fold on a full four-byte chunk. -/
theorem xorWords_cons4 (a b c d : Nat) (l : List Nat) :
    xorWords (a :: b :: c :: d :: l) =
      (a ||| b <<< 8 ||| c <<< 16 ||| d <<< 24) ^^^ xorWords l := rfl

/-- XOR-folding distributes over an append at a word boundary. -/
theorem xorWords_append (l1 l2 : List Nat) (h : l1.length % 4 = 0) :
    xorWords (l1 ++ l2) = xorWords l1 ^^^ xorWords l2 := by
  match l1 with
  | [] => simp [xorWords, leWord]
  | [a] | [a, b] | [a, b, c] => simp at h
  | a :: b :: c :: d :: rest =>
      have h4 : rest.length % 4 = 0 := by simp at h; omega
      have ih := xorWords_append rest l2 h4
      simp only [List.cons_append, xorWords_cons4, ih, Nat.xor_assoc]

/-- XOR-folding a buffer of genuine bytes stays below `2^32`. -/
theorem xorWords_lt (l : List Nat) (h : ∀ b ∈ l, b < 256) :
    xorWords l < 4294967296 := by
  match l with
  | [] => simp [xorWords, leWord]
  | [a] =>
      have ha := h a (by simp)
      simp only [xorWords, leWord]
      omega
  | [a, b] =>
      show a ||| b <<< 8 < 4294967296
      have ha := h a (by simp)
      have hb := h b (by simp)
      rw [or_shl_eq_add b 8 (by omega)]
      omega
  | [a, b, c] =>
      show a ||| b <<< 8 ||| c <<< 16 < 4294967296
      have ha := h a (by simp)
      have hb := h b (by simp)
      have hc := h c (by simp)
      rw [or_shl_eq_add b 8 (by omega), or_shl_eq_add c 16 (by omega)]
      omega
  | a :: b :: c :: d :: rest =>
      have ih := xorWords_lt rest (fun x hx => h x (by simp [hx]))
      have hw := word_lt (h a (by simp)) (h b (by simp)) (h c (by simp))
        (h d (by simp))
      show (a ||| b <<< 8 ||| c <<< 16 ||| d <<< 24) ^^^ xorWords rest <
        4294967296
      have := Nat.xor_lt_two_pow (n := 32) (by simpa using hw) (by simpa using ih)
      simpa using this

/-- XOR-folding a buffer that starts with the four little-endian bytes of a
32-bit value XORs that value (mod `2^32`) with the fold of the rest. -/
theorem xorWords_u32le_cons (n : Nat) (l : List Nat) :
    xorWords (u32le n ++ l) = n % 4294967296 ^^^ xorWords l := by
  show xorWords (n % 256 :: n / 256 % 256 :: n / 65536 % 256 ::
    n / 16777216 % 256 :: l) = n % 4294967296 ^^^ xorWords l
  rw [xorWords, word_u32le]

/-- The four bytes the injector writes at offset 12 are exactly the
little-endian serialization of the checksum value. -/
theorem checksum_bytes_eq (c : Nat) :
    [c &&& 255, (c >>> 8) &&& 255, (c >>> 16) &&& 255, (c >>> 24) &&& 255] =
      u32le c := by
  have h255 : (255 : Nat) = 2 ^ 8 - 1 := by norm_num
  simp only [u32le, h255, Nat.and_pow_two_sub_one_eq_mod,
    Nat.shiftRight_eq_div_pow]

/-! Byte-range and length facts about the serializers. -/

/-- All entries of a buffer are genuine bytes. -/
def Bytes (l : List Nat) : Prop := ∀ b ∈ l, b < 256

theorem Bytes.append {l1 l2 : List Nat} (h1 : Bytes l1) (h2 : Bytes l2) :
    Bytes (l1 ++ l2) := by
  intro b hb
  rcases List.mem_append.1 hb with h | h
  · exact h1 b h
  · exact h2 b h

theorem bytes_u16le (n : Nat) : Bytes (u16le n) := by
  intro b hb
  simp [u16le] at hb
  omega

theorem bytes_u32le (n : Nat) : Bytes (u32le n) := by
  intro b hb
  simp [u32le] at hb
  omega

theorem bytes_replicate (k : Nat) : Bytes (List.replicate k 0) := by
  intro b hb
  simp [List.eq_of_mem_replicate hb]

theorem bytes_serializeTlv (t : TbfHeaderTlv) : Bytes (serializeTlv t) :=
  (bytes_u16le _).append (bytes_u16le _)

theorem bytes_serializeBase (b : TbfHeaderBase) : Bytes (serializeBase b) :=
  ((((bytes_u16le _).append (bytes_u16le _)).append (bytes_u32le _)).append
    (bytes_u32le _)).append (bytes_u32le _)

theorem bytes_serializeMain (m : TbfHeaderMain) : Bytes (serializeMain m) :=
  ((((bytes_serializeTlv _).append (bytes_u32le _)).append
    (bytes_u32le _)).append (bytes_u32le _)).append (bytes_u32le _)

theorem bytes_serializeWfr (w : TbfHeaderWriteableFlashRegion) :
    Bytes (serializeWfr w) :=
  ((bytes_serializeTlv _).append (bytes_u32le _)).append (bytes_u32le _)

theorem bytes_serializeFixed (x : TbfHeaderFixedAddresses) :
    Bytes (serializeFixed x) :=
  ((bytes_serializeTlv _).append (bytes_u32le _)).append (bytes_u32le _)

theorem bytes_wfr_flatten (l : List TbfHeaderWriteableFlashRegion) :
    Bytes (l.map serializeWfr).flatten := by
  intro b hb
  rcases List.mem_flatten.1 hb with ⟨x, hx, hbx⟩
  rcases List.mem_map.1 hx with ⟨w, _, rfl⟩
  exact bytes_serializeWfr w b hbx

/-- Everything `generate` serializes ahead of the checksum is a genuine byte,
provided the stored package name is made of genuine bytes. -/
theorem bytes_generate_body (h : TbfHeader)
    (hn : Bytes h.package_name) : Bytes h.generate_body := by
  refine Bytes.append (Bytes.append (Bytes.append (Bytes.append
    (Bytes.append (bytes_serializeBase _) (bytes_serializeMain _)) ?_)
    (bytes_wfr_flatten _)) ?_) (bytes_replicate _)
  · unfold TbfHeader.name_section
    split
    · intro b hb
      simp at hb
    · refine Bytes.append (Bytes.append ?_ hn) (bytes_replicate _)
      cases h.hdr_pkg_name_tlv with
      | none =>
          intro b hb
          simp [Option.elim] at hb
      | some t => exact bytes_serializeTlv t
  · unfold TbfHeader.fixed_section
    cases h.hdr_fixed_addresses with
    | none =>
        intro b hb
        simp [Option.elim] at hb
    | some x => exact bytes_serializeFixed x

theorem length_u16le (n : Nat) : (u16le n).length = 2 := rfl

theorem length_u32le (n : Nat) : (u32le n).length = 4 := rfl

theorem length_serializeTlv (t : TbfHeaderTlv) : (serializeTlv t).length = 4 :=
  rfl

theorem length_serializeBase (b : TbfHeaderBase) :
    (serializeBase b).length = 16 := rfl

theorem length_serializeMain (m : TbfHeaderMain) :
    (serializeMain m).length = 20 := rfl

theorem length_serializeWfr (w : TbfHeaderWriteableFlashRegion) :
    (serializeWfr w).length = 12 := rfl

theorem length_serializeFixed (x : TbfHeaderFixedAddresses) :
    (serializeFixed x).length = 12 := rfl

theorem length_wfr_flatten (l : List TbfHeaderWriteableFlashRegion) :
    (l.map serializeWfr).flatten.length = 12 * l.length := by
  induction l with
  | nil => simp
  | cons w rest ih =>
      simp [ih, length_serializeWfr]
      ring

/-! Structure of the generated buffer. -/

/-- The first 12 serialized bytes of the base header: everything before the
checksum field. -/
def TbfHeader.base12 (h : TbfHeader) : List Nat :=
  u16le h.hdr_base.version ++ u16le h.hdr_base.header_size ++
    u32le h.hdr_base.total_size ++ u32le h.hdr_base.flags

/-- The final alignment padding appended by `generate`. -/
def TbfHeader.final_pad (h : TbfHeader) : List Nat :=
  List.replicate
    (amount_alignment_needed (h.header_sections.length % 4294967296) 4) 0

/-- Everything `generate` serializes after the checksum field of the base header. -/
def TbfHeader.tail16 (h : TbfHeader) : List Nat :=
  serializeMain h.hdr_main ++ h.name_section ++ h.wfr_section ++
    h.fixed_section ++ h.final_pad

theorem length_base12 (h : TbfHeader) : h.base12.length = 12 := rfl

/-- The pre-checksum buffer, re-associated around the checksum field. -/
theorem generate_body_repr (h : TbfHeader) :
    h.generate_body =
      (h.base12 ++ u32le h.hdr_base.checksum) ++ h.tail16 := by
  simp [TbfHeader.generate_body, TbfHeader.header_sections, TbfHeader.base12,
    TbfHeader.tail16, TbfHeader.final_pad, serializeBase, List.append_assoc]

theorem generate_body_take12 (h : TbfHeader) :
    h.generate_body.take 12 = h.base12 := by
  rw [generate_body_repr, List.append_assoc,
    List.take_append_of_le_length (by simp [length_base12]),
    List.take_of_length_le (by simp [length_base12])]

theorem generate_body_drop16 (h : TbfHeader) :
    h.generate_body.drop 16 = h.tail16 := by
  rw [generate_body_repr, List.drop_left' (by simp [length_base12, length_u32le])]

theorem generate_body_length (h : TbfHeader) :
    h.generate_body.length =
      h.header_sections.length +
        amount_alignment_needed (h.header_sections.length % 4294967296) 4 := by
  simp [TbfHeader.generate_body]

/-- The encoder always pads its output to a 4-byte boundary. -/
theorem generate_body_length_mod4 (h : TbfHeader) :
    h.generate_body.length % 4 = 0 := by
  rw [generate_body_length]
  unfold amount_alignment_needed
  omega

theorem header_sections_length_ge (h : TbfHeader) :
    36 ≤ h.header_sections.length := by
  simp [TbfHeader.header_sections, length_serializeBase, length_serializeMain]
  omega

theorem generate_body_length_ge (h : TbfHeader) :
    36 ≤ h.generate_body.length := by
  have := header_sections_length_ge h
  have := generate_body_length h
  omega

/-- Checksum injection rewrites bytes 12..16 with the little-endian bytes of
the XOR-fold of the pre-buffer. -/
theorem inject_checksum_eq (buf : List Nat) :
    inject_checksum buf =
      buf.take 12 ++ u32le (xorWords buf) ++ buf.drop 16 := by
  rw [inject_checksum, List.append_assoc, ← checksum_bytes_eq (xorWords buf),
    List.append_assoc]

/-- Injection preserves the buffer length (every buffer fed to it holds the
36-byte base + main prefix). -/
theorem inject_checksum_length (buf : List Nat) (h16 : 16 ≤ buf.length) :
    (inject_checksum buf).length = buf.length := by
  rw [inject_checksum_eq]
  simp [length_u32le]
  omega

theorem generate_length_eq_body (h : TbfHeader) :
    h.generate.length = h.generate_body.length := by
  rw [TbfHeader.generate, inject_checksum_length _ (by
    have := generate_body_length_ge h; omega)]

/-- The final buffer, decomposed around the injected checksum field. -/
theorem generate_eq (h : TbfHeader) :
    h.generate =
      h.base12 ++ u32le (xorWords h.generate_body) ++ h.tail16 := by
  rw [TbfHeader.generate, inject_checksum_eq, generate_body_take12,
    generate_body_drop16]

/-! Reachable-state invariant. -/

/-- Field-Store facts holding for every state the public API can produce:
the stored checksum field stays zero, the stored package name is made of
genuine bytes, and a non-empty name has its TLV allocated with the (truncated)
byte length of the name. -/
structure Inv (h : TbfHeader) : Prop where
  checksum0 : h.hdr_base.checksum = 0
  nameBytes : Bytes h.package_name
  nameTlv : h.package_name ≠ [] →
    h.hdr_pkg_name_tlv = some ⟨3, h.package_name.length % 65536⟩

theorem Inv_new : Inv TbfHeader.new := by
  refine ⟨rfl, ?_, ?_⟩
  · intro b hb
    simp [TbfHeader.new] at hb
  · intro hne
    simp [TbfHeader.new] at hne

theorem Inv_create (h : TbfHeader) (hInv : Inv h)
    (sha3 : List Nat → List Nat) (minimum_ram_size writeable_flash_regions : Nat)
    (package_name : List Nat)
    (fixed_address_ram fixed_address_flash app_id : Option Nat)
    (hn : Bytes package_name) :
    Inv (h.create sha3 minimum_ram_size writeable_flash_regions package_name
      fixed_address_ram fixed_address_flash app_id).1 := by
  refine ⟨?_, ?_, ?_⟩
  · simpa [TbfHeader.create] using hInv.checksum0
  · simpa [TbfHeader.create] using hn
  · intro hne
    simp [TbfHeader.create] at hne ⊢
    simp [hne]

theorem Inv_applyMutation (h : TbfHeader) (m : Mutation) (hInv : Inv h) :
    Inv (applyMutation h m) := by
  cases m with
  | protectedSize v =>
      exact ⟨hInv.checksum0, hInv.nameBytes, hInv.nameTlv⟩
  | totalSize v =>
      exact ⟨hInv.checksum0, hInv.nameBytes, hInv.nameTlv⟩
  | initFnOffset v =>
      exact ⟨hInv.checksum0, hInv.nameBytes, hInv.nameTlv⟩
  | wfrValues o s =>
      exact ⟨hInv.checksum0, hInv.nameBytes, hInv.nameTlv⟩

theorem Inv_applyMutations (h : TbfHeader) (ms : List Mutation) (hInv : Inv h) :
    Inv (applyMutations h ms) := by
  induction ms generalizing h with
  | nil => exact hInv
  | cons m rest ih =>
      exact ih _ (Inv_applyMutation h m hInv)

theorem Inv_reachable (h : TbfHeader) (hr : Reachable h) : Inv h := by
  obtain ⟨sha3, r, n, name, far, faf, aid, ms, hb, rfl⟩ := hr
  exact Inv_applyMutations _ _ (Inv_create _ Inv_new _ _ _ _ _ _ _ hb)

/-! Core checksum facts. -/

/-- The pre-injection fold splits around the (zero) stored checksum field. -/
theorem xorWords_generate_body (h : TbfHeader) (h0 : h.hdr_base.checksum = 0) :
    xorWords h.generate_body = xorWords h.base12 ^^^ xorWords h.tail16 := by
  rw [generate_body_repr, List.append_assoc,
    xorWords_append _ _ (by simp [length_base12]), h0,
    xorWords_u32le_cons]
  simp

/-- XOR-folding the final buffer yields zero for any state whose stored
checksum field is zero and whose name is made of genuine bytes. -/
theorem xorWords_generate_zero (h : TbfHeader) (h0 : h.hdr_base.checksum = 0)
    (hn : Bytes h.package_name) : xorWords h.generate = 0 := by
  have hc_lt : xorWords h.generate_body < 4294967296 :=
    xorWords_lt _ (bytes_generate_body h hn)
  have hsplit := xorWords_generate_body h h0
  rw [generate_eq, List.append_assoc,
    xorWords_append _ _ (by simp [length_base12]), xorWords_u32le_cons,
    Nat.mod_eq_of_lt hc_lt, hsplit, Nat.xor_assoc]
  simp

/-! Little-endian field extraction helpers. -/

theorem getD_append_add (l1 l2 : List Nat) (k : Nat) :
    (l1 ++ l2).getD (l1.length + k) 0 = l2.getD k 0 := by
  simp [List.getD_eq_getElem?_getD, List.getElem?_append_right]

/-- Reading 32 bits right after a prefix of known length recovers the
serialized value modulo `2^32`. -/
theorem readU32_append_u32le (A B : List Nat) (x n : Nat)
    (hA : A.length = n) :
    readU32 (A ++ (u32le x ++ B)) n = x % 4294967296 := by
  subst hA
  have h0 : (A ++ (u32le x ++ B)).getD A.length 0 = (u32le x ++ B).getD 0 0 := by
    simpa using getD_append_add A (u32le x ++ B) 0
  have h1 := getD_append_add A (u32le x ++ B) 1
  have h2 := getD_append_add A (u32le x ++ B) 2
  have h3 := getD_append_add A (u32le x ++ B) 3
  unfold readU32
  rw [h0, h1, h2, h3]
  simp [u32le]
  omega

/-- Reading 16 bits right after a prefix of known length recovers the
serialized value modulo `2^16`. -/
theorem readU16_append_u16le (A B : List Nat) (x n : Nat)
    (hA : A.length = n) :
    readU16 (A ++ (u16le x ++ B)) n = x % 65536 := by
  subst hA
  have h0 : (A ++ (u16le x ++ B)).getD A.length 0 = (u16le x ++ B).getD 0 0 := by
    simpa using getD_append_add A (u16le x ++ B) 0
  have h1 := getD_append_add A (u16le x ++ B) 1
  unfold readU16
  rw [h0, h1]
  simp [u16le]
  omega

/-- The checksum field of the final buffer holds the pre-injection fold. -/
theorem readU32_generate_12 (h : TbfHeader) (hn : Bytes h.package_name) :
    readU32 h.generate 12 = xorWords h.generate_body := by
  have hc_lt : xorWords h.generate_body < 4294967296 :=
    xorWords_lt _ (bytes_generate_body h hn)
  rw [generate_eq, List.append_assoc,
    readU32_append_u32le _ _ _ _ (length_base12 h), Nat.mod_eq_of_lt hc_lt]

/-! Field-level characterization of `create` and section lengths. -/

section CreateFields

variable (self : TbfHeader) (sha3 : List Nat → List Nat)
variable (minimum_ram_size writeable_flash_regions : Nat)
variable (package_name : List Nat)
variable (fixed_address_ram fixed_address_flash app_id : Option Nat)

theorem create_package_name :
    (self.create sha3 minimum_ram_size writeable_flash_regions package_name
      fixed_address_ram fixed_address_flash app_id).1.package_name =
      package_name := by
  simp [TbfHeader.create]

theorem create_package_name_pad :
    (self.create sha3 minimum_ram_size writeable_flash_regions package_name
      fixed_address_ram fixed_address_flash app_id).1.package_name_pad =
      if package_name = [] then 0
      else amount_alignment_needed ((40 + package_name.length) % 4294967296) 4 := by
  simp [TbfHeader.create]

theorem create_pkg_name_tlv :
    (self.create sha3 minimum_ram_size writeable_flash_regions package_name
      fixed_address_ram fixed_address_flash app_id).1.hdr_pkg_name_tlv =
      if package_name = [] then self.hdr_pkg_name_tlv
      else some ⟨3, package_name.length % 65536⟩ := by
  simp [TbfHeader.create]

theorem create_hdr_wfr :
    (self.create sha3 minimum_ram_size writeable_flash_regions package_name
      fixed_address_ram fixed_address_flash app_id).1.hdr_wfr =
      self.hdr_wfr ++
        List.replicate writeable_flash_regions ⟨⟨2, 8⟩, 0, 0⟩ := by
  simp [TbfHeader.create]

theorem create_fixed_addresses :
    (self.create sha3 minimum_ram_size writeable_flash_regions package_name
      fixed_address_ram fixed_address_flash app_id).1.hdr_fixed_addresses =
      if fixed_address_ram.isSome || fixed_address_flash.isSome then
        some ⟨⟨5, 8⟩, fixed_address_ram.getD 4294967295,
          fixed_address_flash.getD 4294967295⟩
      else self.hdr_fixed_addresses := by
  simp [TbfHeader.create]

theorem create_snd :
    (self.create sha3 minimum_ram_size writeable_flash_regions package_name
      fixed_address_ram fixed_address_flash app_id).2 =
      (self.create sha3 minimum_ram_size writeable_flash_regions package_name
        fixed_address_ram fixed_address_flash app_id).1.generate.length := rfl

end CreateFields

/-! Section lengths. -/

theorem fixed_section_length (h : TbfHeader) :
    h.fixed_section.length = if h.hdr_fixed_addresses.isSome then 12 else 0 := by
  unfold TbfHeader.fixed_section
  cases h.hdr_fixed_addresses <;> simp [length_serializeFixed]

theorem name_section_length_of_tlv (h : TbfHeader)
    (ht : h.package_name ≠ [] →
      h.hdr_pkg_name_tlv = some ⟨3, h.package_name.length % 65536⟩) :
    h.name_section.length =
      if h.package_name = [] then 0
      else 4 + h.package_name.length + h.package_name_pad := by
  by_cases he : h.package_name = []
  · simp [TbfHeader.name_section, he]
  · simp [TbfHeader.name_section, he, ht he, length_serializeTlv]
    omega

theorem header_sections_length_eq (h : TbfHeader) :
    h.header_sections.length =
      36 + h.name_section.length + 12 * h.hdr_wfr.length +
        h.fixed_section.length := by
  have hw : h.wfr_section.length = 12 * h.hdr_wfr.length :=
    length_wfr_flatten h.hdr_wfr
  simp [TbfHeader.header_sections, length_serializeBase, length_serializeMain,
    hw]
  ring

theorem setWfrValues_length (o s : Nat)
    (l : List TbfHeaderWriteableFlashRegion) :
    (setWfrValues o s l).length = l.length := by
  induction l with
  | nil => rfl
  | cons w rest ih =>
      unfold setWfrValues
      split <;> simp [ih]

/-- No setter changes the layout: the serialized length is preserved. -/
theorem applyMutation_sections_length (h : TbfHeader) (m : Mutation) :
    (applyMutation h m).header_sections.length = h.header_sections.length := by
  cases m with
  | protectedSize v =>
      rw [header_sections_length_eq, header_sections_length_eq]
      rfl
  | totalSize v =>
      rw [header_sections_length_eq, header_sections_length_eq]
      rfl
  | initFnOffset v =>
      rw [header_sections_length_eq, header_sections_length_eq]
      rfl
  | wfrValues o s =>
      rw [header_sections_length_eq, header_sections_length_eq]
      show 36 + h.name_section.length + 12 * (setWfrValues o s h.hdr_wfr).length +
        h.fixed_section.length = _
      rw [setWfrValues_length]

theorem applyMutation_generate_length (h : TbfHeader) (m : Mutation) :
    (applyMutation h m).generate.length = h.generate.length := by
  rw [generate_length_eq_body, generate_length_eq_body, generate_body_length,
    generate_body_length, applyMutation_sections_length]

theorem applyMutations_generate_length (h : TbfHeader) (ms : List Mutation) :
    (applyMutations h ms).generate.length = h.generate.length := by
  induction ms generalizing h with
  | nil => rfl
  | cons m rest ih =>
      show (applyMutations (applyMutation h m) rest).generate.length = _
      rw [ih, applyMutation_generate_length]

/-- Closed form of the section length (before final padding) for a header
freshly built by `new` + `create`. -/
theorem create_header_sections_length (sha3 : List Nat → List Nat)
    (minimum_ram_size writeable_flash_regions : Nat) (package_name : List Nat)
    (fixed_address_ram fixed_address_flash app_id : Option Nat) :
    (TbfHeader.new.create sha3 minimum_ram_size writeable_flash_regions
        package_name fixed_address_ram fixed_address_flash
        app_id).1.header_sections.length =
      36 +
        (if package_name = [] then 0
         else 4 + package_name.length +
           amount_alignment_needed ((40 + package_name.length) % 4294967296) 4) +
        12 * writeable_flash_regions +
        (if fixed_address_ram.isSome || fixed_address_flash.isSome then 12
         else 0) := by
  have hname := create_package_name TbfHeader.new sha3 minimum_ram_size
    writeable_flash_regions package_name fixed_address_ram fixed_address_flash
    app_id
  have hpad := create_package_name_pad TbfHeader.new sha3 minimum_ram_size
    writeable_flash_regions package_name fixed_address_ram fixed_address_flash
    app_id
  have htlv := create_pkg_name_tlv TbfHeader.new sha3 minimum_ram_size
    writeable_flash_regions package_name fixed_address_ram fixed_address_flash
    app_id
  have hwfr := create_hdr_wfr TbfHeader.new sha3 minimum_ram_size
    writeable_flash_regions package_name fixed_address_ram fixed_address_flash
    app_id
  have hfx := create_fixed_addresses TbfHeader.new sha3 minimum_ram_size
    writeable_flash_regions package_name fixed_address_ram fixed_address_flash
    app_id
  have htlvc : (TbfHeader.new.create sha3 minimum_ram_size
      writeable_flash_regions package_name fixed_address_ram
      fixed_address_flash app_id).1.package_name ≠ [] →
      (TbfHeader.new.create sha3 minimum_ram_size writeable_flash_regions
        package_name fixed_address_ram fixed_address_flash
        app_id).1.hdr_pkg_name_tlv =
        some ⟨3, (TbfHeader.new.create sha3 minimum_ram_size
          writeable_flash_regions package_name fixed_address_ram
          fixed_address_flash app_id).1.package_name.length % 65536⟩ := by
    intro hne
    rw [hname] at hne
    rw [htlv, if_neg hne, hname]
  rw [header_sections_length_eq, name_section_length_of_tlv _ htlvc, hname,
    hpad]
  have hwlen : (TbfHeader.new.create sha3 minimum_ram_size
      writeable_flash_regions package_name fixed_address_ram
      fixed_address_flash app_id).1.hdr_wfr.length =
      writeable_flash_regions := by
    rw [hwfr]
    simp [TbfHeader.new]
  have hflen : (TbfHeader.new.create sha3 minimum_ram_size
      writeable_flash_regions package_name fixed_address_ram
      fixed_address_flash app_id).1.fixed_section.length =
      if fixed_address_ram.isSome || fixed_address_flash.isSome then 12
      else 0 := by
    rw [fixed_section_length, hfx]
    by_cases hc : fixed_address_ram.isSome || fixed_address_flash.isSome
    · simp [hc]
    · simp [hc, TbfHeader.new]
  rw [hwlen, hflen]
  by_cases he : package_name = [] <;> simp [he]

/-- The sections of a freshly created header already end on a 4-byte boundary,
so `generate` appends no final padding for it. -/
theorem create_sections_mod4 (sha3 : List Nat → List Nat)
    (minimum_ram_size writeable_flash_regions : Nat) (package_name : List Nat)
    (fixed_address_ram fixed_address_flash app_id : Option Nat) :
    (TbfHeader.new.create sha3 minimum_ram_size writeable_flash_regions
        package_name fixed_address_ram fixed_address_flash
        app_id).1.header_sections.length % 4 = 0 := by
  rw [create_header_sections_length]
  unfold amount_alignment_needed
  by_cases he : package_name = [] <;>
    by_cases hc : (fixed_address_ram.isSome || fixed_address_flash.isSome) <;>
    simp [he, hc] <;> omega

theorem final_pad_nil_of_mod4 (h : TbfHeader)
    (hm : h.header_sections.length % 4 = 0) : h.final_pad = [] := by
  unfold TbfHeader.final_pad amount_alignment_needed
  have h4 : h.header_sections.length % 4294967296 % 4 = 0 := by omega
  rw [h4]
  norm_num

theorem create_final_pad (sha3 : List Nat → List Nat)
    (minimum_ram_size writeable_flash_regions : Nat) (package_name : List Nat)
    (fixed_address_ram fixed_address_flash app_id : Option Nat) :
    (TbfHeader.new.create sha3 minimum_ram_size writeable_flash_regions
        package_name fixed_address_ram fixed_address_flash
        app_id).1.final_pad = [] :=
  final_pad_nil_of_mod4 _ (create_sections_mod4 sha3 minimum_ram_size
    writeable_flash_regions package_name fixed_address_ram fixed_address_flash
    app_id)

/-- When the sections already end on a word boundary, the generated buffer
is exactly the sections (no final padding is added). -/
theorem generate_length_of_mod4 (h : TbfHeader)
    (hm : h.header_sections.length % 4 = 0) :
    h.generate.length = h.header_sections.length := by
  rw [generate_length_eq_body, generate_body_length]
  unfold amount_alignment_needed
  omega

/-- Closed form of the length of the buffer `generate` produces for a header
freshly built by `new` + `create`. -/
theorem create_generate_length (sha3 : List Nat → List Nat)
    (minimum_ram_size writeable_flash_regions : Nat) (package_name : List Nat)
    (fixed_address_ram fixed_address_flash app_id : Option Nat) :
    (TbfHeader.new.create sha3 minimum_ram_size writeable_flash_regions
        package_name fixed_address_ram fixed_address_flash
        app_id).1.generate.length =
      36 +
        (if package_name = [] then 0
         else 4 + package_name.length +
           amount_alignment_needed ((40 + package_name.length) % 4294967296) 4) +
        12 * writeable_flash_regions +
        (if fixed_address_ram.isSome || fixed_address_flash.isSome then 12
         else 0) := by
  rw [generate_length_of_mod4 _ (create_sections_mod4 sha3 minimum_ram_size
    writeable_flash_regions package_name fixed_address_ram fixed_address_flash
    app_id), create_header_sections_length]

/-- C1: for every set of creation parameters, `create` returns a total header
length equal to 16 + 20, plus (4 + name length + padding to the next 4-byte
boundary) when the name is non-empty, plus 12 bytes per requested flash
region, plus 12 when at least one fixed address was supplied; the returned
length is a multiple of 4 and equals the length of the buffer `generate`
produces, also after any later sequence of setter calls. -/
theorem C1_create_header_length (sha3 : List Nat → List Nat)
    (minimum_ram_size writeable_flash_regions : Nat) (package_name : List Nat)
    (fixed_address_ram fixed_address_flash app_id : Option Nat) :
    (TbfHeader.new.create sha3 minimum_ram_size writeable_flash_regions
        package_name fixed_address_ram fixed_address_flash app_id).2 =
      16 + 20 +
        (if package_name = [] then 0
         else 4 + package_name.length +
           amount_alignment_needed ((36 + 4 + package_name.length) %
             4294967296) 4) +
        12 * writeable_flash_regions +
        (if fixed_address_ram.isSome || fixed_address_flash.isSome then 12
         else 0) ∧
    (TbfHeader.new.create sha3 minimum_ram_size writeable_flash_regions
        package_name fixed_address_ram fixed_address_flash app_id).2 % 4 = 0 ∧
    ∀ ms : List Mutation,
      (applyMutations (TbfHeader.new.create sha3 minimum_ram_size
        writeable_flash_regions package_name fixed_address_ram
        fixed_address_flash app_id).1 ms).generate.length =
      (TbfHeader.new.create sha3 minimum_ram_size writeable_flash_regions
        package_name fixed_address_ram fixed_address_flash app_id).2 := by
  refine ⟨?_, ?_, ?_⟩
  · rw [create_snd, create_generate_length]
  · rw [create_snd, generate_length_eq_body, generate_body_length_mod4]
  · intro ms
    rw [create_snd, applyMutations_generate_length]

theorem generate_take12 (h : TbfHeader) : h.generate.take 12 = h.base12 := by
  rw [generate_eq, List.append_assoc,
    List.take_append_of_le_length (by simp [length_base12]),
    List.take_of_length_le (by simp [length_base12])]

theorem generate_drop16 (h : TbfHeader) : h.generate.drop 16 = h.tail16 := by
  rw [generate_eq,
    List.drop_left' (by simp [length_base12, length_u32le])]

/-- A buffer with its checksum field (bytes 12..16) replaced by zeros — the
shape over which the spec defines the checksum. -/
def zeroChecksumField (buf : List Nat) : List Nat :=
  buf.take 12 ++ [0, 0, 0, 0] ++ buf.drop 16

/-- Before injection, the serialized bytes at offsets 12..16 are the stored
checksum field — zeros whenever that field is zero. -/
theorem generate_body_bytes12 (h : TbfHeader) (h0 : h.hdr_base.checksum = 0) :
    (h.generate_body.drop 12).take 4 = [0, 0, 0, 0] := by
  rw [generate_body_repr, h0, List.append_assoc,
    List.drop_left' (length_base12 h),
    List.take_append_of_le_length (by simp [length_u32le]),
    List.take_of_length_le (by simp [length_u32le])]
  rfl

/-- C2: for every header state reachable through `new`, `create` and any
sequence of setter calls, XOR-folding the complete buffer returned by
`generate` as successive little-endian 32-bit words yields exactly 0. -/
theorem C2_generate_folds_to_zero (h : TbfHeader) (hr : Reachable h) :
    xorWords h.generate = 0 := by
  have hInv := Inv_reachable h hr
  exact xorWords_generate_zero h hInv.checksum0 hInv.nameBytes

/-- Witness for C2 at a concrete reachable state: one flash region created
and later filled, a one-byte package name, a fixed RAM address. -/
theorem C2_generate_folds_to_zero_witness :
    Reachable (applyMutations (TbfHeader.new.create
      (fun _ => List.replicate 32 0) 1024 1 [98] (some 4096) none none).1
      [Mutation.wfrValues 512 64]) ∧
    xorWords (applyMutations (TbfHeader.new.create
      (fun _ => List.replicate 32 0) 1024 1 [98] (some 4096) none none).1
      [Mutation.wfrValues 512 64]).generate = 0 := by
  have hr : Reachable (applyMutations (TbfHeader.new.create
      (fun _ => List.replicate 32 0) 1024 1 [98] (some 4096) none none).1
      [Mutation.wfrValues 512 64]) :=
    ⟨fun _ => List.replicate 32 0, 1024, 1, [98], some 4096, none, none,
      [Mutation.wfrValues 512 64], by decide, rfl⟩
  exact ⟨hr, C2_generate_folds_to_zero _ hr⟩

/-- C3: the checksum value stored little-endian at bytes 12..15 of the
output equals the XOR-fold (little-endian 32-bit words, final partial word
zero-extended — see `xorWords`) of the buffer with the checksum field
treated as zero. -/
theorem C3_checksum_value (h : TbfHeader) (hr : Reachable h) :
    readU32 h.generate 12 = xorWords (zeroChecksumField h.generate) := by
  have hInv := Inv_reachable h hr
  have hz : zeroChecksumField h.generate = h.generate_body := by
    rw [zeroChecksumField, generate_take12, generate_drop16,
      generate_body_repr, hInv.checksum0]
    rfl
  rw [hz, readU32_generate_12 h hInv.nameBytes]

/-- Witness for C3 at a concrete reachable state. -/
theorem C3_checksum_value_witness :
    Reachable (TbfHeader.new.create (fun _ => List.replicate 32 1) 2048 0
      [98, 108, 105, 110, 107] none none (some 73)).1 ∧
    readU32 (TbfHeader.new.create (fun _ => List.replicate 32 1) 2048 0
      [98, 108, 105, 110, 107] none none (some 73)).1.generate 12 =
      xorWords (zeroChecksumField (TbfHeader.new.create
        (fun _ => List.replicate 32 1) 2048 0 [98, 108, 105, 110, 107] none
        none (some 73)).1.generate) := by
  have hr : Reachable (TbfHeader.new.create (fun _ => List.replicate 32 1)
      2048 0 [98, 108, 105, 110, 107] none none (some 73)).1 :=
    ⟨fun _ => List.replicate 32 1, 2048, 0, [98, 108, 105, 110, 107], none,
      none, some 73, [], by decide, rfl⟩
  exact ⟨hr, C3_checksum_value _ hr⟩

/-- C9: the stored checksum field is 0 at construction, is preserved
unchanged by `create` and by every setter, and consequently any state with a
zero stored checksum serializes zero bytes at offsets 12..15 of the
pre-injection buffer (`generate` itself is a pure function of the header, so
repeated encodes see the same zero field). -/
theorem C9_checksum_field_stays_zero :
    TbfHeader.new.hdr_base.checksum = 0 ∧
    (∀ (self : TbfHeader) (sha3 : List Nat → List Nat)
      (minimum_ram_size writeable_flash_regions : Nat)
      (package_name : List Nat)
      (fixed_address_ram fixed_address_flash app_id : Option Nat),
      (self.create sha3 minimum_ram_size writeable_flash_regions package_name
        fixed_address_ram fixed_address_flash
        app_id).1.hdr_base.checksum = self.hdr_base.checksum) ∧
    (∀ (h : TbfHeader) (m : Mutation),
      (applyMutation h m).hdr_base.checksum = h.hdr_base.checksum) ∧
    (∀ h : TbfHeader, h.hdr_base.checksum = 0 →
      (h.generate_body.drop 12).take 4 = [0, 0, 0, 0]) := by
  refine ⟨rfl, ?_, ?_, ?_⟩
  · intro self sha3 r n name far faf aid
    simp [TbfHeader.create]
  · intro h m
    cases m <;> rfl
  · intro h h0
    exact generate_body_bytes12 h h0

/-- Witness for the conditional part of C9 at the freshly constructed header. -/
theorem C9_checksum_field_stays_zero_witness :
    TbfHeader.new.hdr_base.checksum = 0 ∧
    (TbfHeader.new.generate_body.drop 12).take 4 = [0, 0, 0, 0] :=
  ⟨rfl, C9_checksum_field_stays_zero.2.2.2 TbfHeader.new rfl⟩

/-- When there is no final padding and a fixed-addresses TLV is present, it
occupies exactly the last 12 bytes of the generated buffer. -/
theorem generate_last12 (h : TbfHeader) (x : TbfHeaderFixedAddresses)
    (hx : h.hdr_fixed_addresses = some x) (hp : h.final_pad = []) :
    h.generate.drop (h.generate.length - 12) = serializeFixed x := by
  have hfix : h.fixed_section = serializeFixed x := by
    rw [TbfHeader.fixed_section, hx]
    rfl
  have hrepr : h.generate =
      (h.base12 ++ u32le (xorWords h.generate_body) ++
        (serializeMain h.hdr_main ++ h.name_section ++ h.wfr_section)) ++
        serializeFixed x := by
    rw [generate_eq, TbfHeader.tail16, hfix, hp]
    simp [List.append_assoc]
  rw [hrepr, List.drop_left']
  simp [length_serializeFixed]
  omega

/-- C7: the encoded buffer carries a fixed-addresses TLV (type 5, length 8,
then `start_process_ram` and `start_process_flash` little-endian) exactly
when at least one fixed address was requested at creation, the unsupplied
address encoding as the sentinel `0xFFFFFFFF`; with no request the field
stays absent. -/
theorem C7_fixed_addresses_tlv (sha3 : List Nat → List Nat)
    (minimum_ram_size writeable_flash_regions : Nat) (package_name : List Nat)
    (fixed_address_ram fixed_address_flash app_id : Option Nat) :
    ((TbfHeader.new.create sha3 minimum_ram_size writeable_flash_regions
        package_name fixed_address_ram fixed_address_flash
        app_id).1.hdr_fixed_addresses =
      if fixed_address_ram.isSome || fixed_address_flash.isSome then
        some ⟨⟨5, 8⟩, fixed_address_ram.getD 4294967295,
          fixed_address_flash.getD 4294967295⟩
      else none) ∧
    ((fixed_address_ram.isSome || fixed_address_flash.isSome) = true →
      (TbfHeader.new.create sha3 minimum_ram_size writeable_flash_regions
          package_name fixed_address_ram fixed_address_flash
          app_id).1.generate.drop
        ((TbfHeader.new.create sha3 minimum_ram_size writeable_flash_regions
          package_name fixed_address_ram fixed_address_flash
          app_id).1.generate.length - 12) =
        serializeFixed ⟨⟨5, 8⟩, fixed_address_ram.getD 4294967295,
          fixed_address_flash.getD 4294967295⟩) := by
  constructor
  · rw [create_fixed_addresses]
    by_cases hc : fixed_address_ram.isSome || fixed_address_flash.isSome
    · simp [hc]
    · simp [hc, TbfHeader.new]
  · intro hc
    refine generate_last12 _ _ ?_ (create_final_pad sha3 minimum_ram_size
      writeable_flash_regions package_name fixed_address_ram
      fixed_address_flash app_id)
    rw [create_fixed_addresses, if_pos hc]

/-- Witness for C7 at Scenario D of the spec: fixed RAM address 0x20000000,
no fixed flash address. -/
theorem C7_fixed_addresses_tlv_witness :
    ((some 536870912 : Option Nat).isSome || (none : Option Nat).isSome) = true ∧
    (TbfHeader.new.create (fun _ => List.replicate 32 0) 2048 0 []
        (some 536870912) none (some 4660)).1.generate.drop
      ((TbfHeader.new.create (fun _ => List.replicate 32 0) 2048 0 []
        (some 536870912) none (some 4660)).1.generate.length - 12) =
      serializeFixed ⟨⟨5, 8⟩, (some (536870912 : Nat)).getD 4294967295,
        (none : Option Nat).getD 4294967295⟩ :=
  ⟨rfl, (C7_fixed_addresses_tlv (fun _ => List.replicate 32 0) 2048 0 []
    (some 536870912) none (some 4660)).2 rfl⟩

theorem Bytes.getD_lt {l : List Nat} (h : Bytes l) (i : Nat) :
    l.getD i 0 < 256 := by
  cases hq : l[i]? with
  | none => simp [List.getD_eq_getElem?_getD, hq]
  | some b =>
      have hb : b ∈ l := List.getElem?_mem hq
      simpa [List.getD_eq_getElem?_getD, hq] using h b hb

/-- C4: after `create`, `app_id` is the explicitly supplied identifier when
one was given; otherwise it is the first 4 bytes, little-endian, of the
digest of the package-name bytes (digest of the empty string for the empty
name), and the derived value depends on nothing but the digest capability
and the name — hence is identical across runs with the same name. -/
theorem C4_app_id_derivation (sha3 : List Nat → List Nat)
    (minimum_ram_size writeable_flash_regions : Nat) (package_name : List Nat)
    (fixed_address_ram fixed_address_flash : Option Nat)
    (hB : Bytes (sha3 (if package_name = [] then [] else package_name))) :
    (∀ v, (TbfHeader.new.create sha3 minimum_ram_size writeable_flash_regions
      package_name fixed_address_ram fixed_address_flash
      (some v)).1.hdr_main.app_id = v) ∧
    ((TbfHeader.new.create sha3 minimum_ram_size writeable_flash_regions
      package_name fixed_address_ram fixed_address_flash
      none).1.hdr_main.app_id =
      readU32 (sha3 (if package_name = [] then [] else package_name)) 0) ∧
    (∀ (r2 n2 : Nat) (far2 faf2 : Option Nat),
      (TbfHeader.new.create sha3 r2 n2 package_name far2 faf2
        none).1.hdr_main.app_id =
      (TbfHeader.new.create sha3 minimum_ram_size writeable_flash_regions
        package_name fixed_address_ram fixed_address_flash
        none).1.hdr_main.app_id) := by
  refine ⟨?_, ?_, ?_⟩
  · intro v
    simp [TbfHeader.create]
  · simp only [TbfHeader.create, readU32]
    rw [word_eq_add _ (hB.getD_lt 0) (hB.getD_lt 1) (hB.getD_lt 2)]
  · intro r2 n2 far2 faf2
    simp [TbfHeader.create]

/-- Witness for C4 with a concrete digest capability and the name "blink". -/
theorem C4_app_id_derivation_witness :
    Bytes ((fun _ => List.replicate 32 5)
      (if ([98, 108, 105, 110, 107] : List Nat) = [] then []
       else [98, 108, 105, 110, 107])) ∧
    (TbfHeader.new.create (fun _ => List.replicate 32 5) 2048 0
      [98, 108, 105, 110, 107] none none none).1.hdr_main.app_id =
      readU32 ((fun _ => List.replicate 32 5)
        (if ([98, 108, 105, 110, 107] : List Nat) = [] then []
         else [98, 108, 105, 110, 107])) 0 := by
  have hB : Bytes ((fun _ => List.replicate 32 5)
      (if ([98, 108, 105, 110, 107] : List Nat) = [] then []
       else [98, 108, 105, 110, 107])) := by
    intro b hb
    simp at hb
    omega
  exact ⟨hB, (C4_app_id_derivation (fun _ => List.replicate 32 5) 2048 0
    [98, 108, 105, 110, 107] none none hB).2.1⟩

/-- Default slot value used only as the `getD` fallback in statements (the
fallback is never reached when the index is in range). -/
def wfrDefault : TbfHeaderWriteableFlashRegion := ⟨⟨2, 8⟩, 0, 0⟩

/-- Characterization of the slot-filling loop: it rewrites the slot at the
first index whose size is zero and is the identity when no such index
exists. -/
theorem setWfrValues_eq (o s : Nat)
    (l : List TbfHeaderWriteableFlashRegion) :
    setWfrValues o s l =
      if (l.findIdx fun w => w.size == 0) < l.length then
        l.set (l.findIdx fun w => w.size == 0)
          { l.getD (l.findIdx fun w => w.size == 0) wfrDefault with
              offset := o, size := s }
      else l := by
  induction l with
  | nil => simp [setWfrValues]
  | cons w rest ih =>
      by_cases hw : w.size = 0
      · have hp : (w.size == 0) = true := by simp [hw]
        simp [setWfrValues, hw, List.findIdx_cons, hp]
      · have hp : (w.size == 0) = false := by simp [hw]
        simp only [setWfrValues, hw, if_false, List.findIdx_cons, hp,
          cond_false, List.length_cons, Nat.add_lt_add_iff_right,
          List.set_cons_succ, List.getD_cons_succ, ih]
        split
        · rfl
        · rfl

/-- C6: every call to the writeable-flash-region setter fills the first
slot (in creation order) whose size is still zero with the given offset and
size; when no zero-size slot exists the call changes nothing and signals no
error (the whole header is returned unchanged). -/
theorem C6_wfr_setter_fills_first_empty (h : TbfHeader) (o s : Nat) :
    (h.set_writeable_flash_region_values o s =
      if (h.hdr_wfr.findIdx fun w => w.size == 0) < h.hdr_wfr.length then
        { h with hdr_wfr := (h.hdr_wfr.set
            (h.hdr_wfr.findIdx fun w => w.size == 0)
            { h.hdr_wfr.getD (h.hdr_wfr.findIdx fun w => w.size == 0)
                wfrDefault with offset := o, size := s }) }
      else h) ∧
    ((∀ w ∈ h.hdr_wfr, w.size ≠ 0) →
      h.set_writeable_flash_region_values o s = h) := by
  constructor
  · rw [TbfHeader.set_writeable_flash_region_values, setWfrValues_eq]
    split
    · rfl
    · rfl
  · intro hall
    have hneg : ¬ (h.hdr_wfr.findIdx fun w => w.size == 0) <
        h.hdr_wfr.length := by
      intro hlt
      obtain ⟨x, hx, hpx⟩ := List.findIdx_lt_length.1 hlt
      exact hall x hx (by simpa using hpx)
    rw [TbfHeader.set_writeable_flash_region_values, setWfrValues_eq,
      if_neg hneg]

/-- Witness for the no-op branch of C6: a header with no allocated slots. -/
theorem C6_wfr_setter_fills_first_empty_witness :
    (∀ w ∈ TbfHeader.new.hdr_wfr, w.size ≠ 0) ∧
    TbfHeader.new.set_writeable_flash_region_values 4096 512 =
      TbfHeader.new := by
  have hall : ∀ w ∈ TbfHeader.new.hdr_wfr, w.size ≠ 0 := by
    intro w hw
    simp [TbfHeader.new] at hw
  exact ⟨hall,
    (C6_wfr_setter_fills_first_empty TbfHeader.new 4096 512).2 hall⟩

/-- A zero-size fill leaves the size of the filled slot zero, so a following call
targets the same slot again. -/
theorem setWfrValues_zero_then_set (o o2 s2 : Nat)
    (l : List TbfHeaderWriteableFlashRegion) :
    setWfrValues o2 s2 (setWfrValues o 0 l) = setWfrValues o2 s2 l := by
  induction l with
  | nil => rfl
  | cons w rest ih =>
      by_cases hw : w.size = 0
      · simp [setWfrValues, hw]
      · simp [setWfrValues, hw, ih]

/-- A zero-size fill changes no stored size. -/
theorem setWfrValues_zero_sizes (o : Nat)
    (l : List TbfHeaderWriteableFlashRegion) :
    (setWfrValues o 0 l).map (fun w => w.size) = l.map (fun w => w.size) := by
  induction l with
  | nil => rfl
  | cons w rest ih =>
      by_cases hw : w.size = 0
      · simp [setWfrValues, hw]
      · simp [setWfrValues, hw, ih]

/-- C10: calling the flash-region setter with size 0 does not consume a
slot: the size of every slot is unchanged (the size of the first empty slot stays 0,
only its offset is overwritten), and the very next setter call behaves
exactly as if the zero-size call had never happened — it writes into that
same first slot, discarding the previously stored offset. -/
theorem C10_zero_size_call_not_consuming (h : TbfHeader) (o o2 s2 : Nat) :
    (h.set_writeable_flash_region_values o 0).set_writeable_flash_region_values
        o2 s2 = h.set_writeable_flash_region_values o2 s2 ∧
    (h.set_writeable_flash_region_values o 0).hdr_wfr.map (fun w => w.size) =
      h.hdr_wfr.map (fun w => w.size) := by
  constructor
  · show { h with hdr_wfr :=
        setWfrValues o2 s2 (setWfrValues o 0 h.hdr_wfr) } = _
    rw [setWfrValues_zero_then_set]
    rfl
  · exact setWfrValues_zero_sizes o h.hdr_wfr

/-- The value `create` stores in the u16 `header_size` field: the computed
header length truncated with `as u16`. -/
theorem create_header_size (sha3 : List Nat → List Nat)
    (minimum_ram_size writeable_flash_regions : Nat) (package_name : List Nat)
    (fixed_address_ram fixed_address_flash app_id : Option Nat) :
    (TbfHeader.new.create sha3 minimum_ram_size writeable_flash_regions
        package_name fixed_address_ram fixed_address_flash
        app_id).1.hdr_base.header_size =
      (36 +
        (if package_name = [] then 0
         else 4 + package_name.length +
           amount_alignment_needed ((40 + package_name.length) % 4294967296) 4) +
        12 * writeable_flash_regions +
        (if fixed_address_ram.isSome || fixed_address_flash.isSome then 12
         else 0)) % 65536 := by
  by_cases he : package_name = [] <;>
    by_cases hc : fixed_address_ram.isSome || fixed_address_flash.isSome <;>
    simp [TbfHeader.create, he, hc] <;> ring_nf

/-- Reading the u16 at offset 2 of the final buffer recovers the stored
`header_size` field. -/
theorem readU16_generate_2 (h : TbfHeader) :
    readU16 h.generate 2 = h.hdr_base.header_size % 65536 := by
  rw [generate_eq]
  rw [show h.base12 ++ u32le (xorWords h.generate_body) ++ h.tail16 =
    u16le h.hdr_base.version ++ (u16le h.hdr_base.header_size ++
      (u32le h.hdr_base.total_size ++ (u32le h.hdr_base.flags ++
        (u32le (xorWords h.generate_body) ++ h.tail16)))) from by
    simp [TbfHeader.base12, List.append_assoc]]
  exact readU16_append_u16le _ _ _ _ (length_u16le _)

theorem applyMutations_header_size (h : TbfHeader) (ms : List Mutation) :
    (applyMutations h ms).hdr_base.header_size =
      h.hdr_base.header_size := by
  induction ms generalizing h with
  | nil => rfl
  | cons m rest ih =>
      show (applyMutations (applyMutation h m) rest).hdr_base.header_size = _
      rw [ih]
      cases m <;> rfl

/-- Every reachable state stores in `header_size` the truncation (mod
`2^16`) of the length of the buffer `generate` produces for it. -/
theorem reachable_header_size (h : TbfHeader) (hr : Reachable h) :
    h.hdr_base.header_size = h.generate.length % 65536 := by
  obtain ⟨sha3, r, n, name, far, faf, aid, ms, hb, rfl⟩ := hr
  rw [applyMutations_header_size, applyMutations_generate_length,
    create_header_size, create_generate_length]

/-- C5 (amended): for every reachable state whose total header length fits
in 16 bits, the u16 `header_size` field encoded at bytes 2..3 equals the
buffer length, and the length is a multiple of 4.  (Without the bound the
stored field is the length truncated mod `2^16`; see the counterexample.) -/
theorem C5_header_size_matches_length (h : TbfHeader) (hr : Reachable h)
    (hlt : h.generate.length < 65536) :
    readU16 h.generate 2 = h.generate.length ∧
    h.generate.length % 4 = 0 := by
  constructor
  · rw [readU16_generate_2, reachable_header_size h hr]
    omega
  · rw [generate_length_eq_body]
    exact generate_body_length_mod4 h

/-- Witness for the amended statement of C5 at a small concrete header. -/
theorem C5_header_size_matches_length_witness :
    Reachable (TbfHeader.new.create (fun _ => List.replicate 32 0) 512 1 []
      none none (some 7)).1 ∧
    (TbfHeader.new.create (fun _ => List.replicate 32 0) 512 1 [] none none
      (some 7)).1.generate.length < 65536 ∧
    readU16 (TbfHeader.new.create (fun _ => List.replicate 32 0) 512 1 []
      none none (some 7)).1.generate 2 =
      (TbfHeader.new.create (fun _ => List.replicate 32 0) 512 1 [] none none
        (some 7)).1.generate.length := by
  have hr : Reachable (TbfHeader.new.create (fun _ => List.replicate 32 0)
      512 1 [] none none (some 7)).1 :=
    ⟨fun _ => List.replicate 32 0, 512, 1, [], none, none, some 7, [],
      by decide, rfl⟩
  have hlt : (TbfHeader.new.create (fun _ => List.replicate 32 0) 512 1 []
      none none (some 7)).1.generate.length < 65536 := by
    rw [create_generate_length]
    decide
  exact ⟨hr, hlt,
    (C5_header_size_matches_length _ hr hlt).1⟩

/-- Counterexample to C5 as stated: a 65532-byte package name pushes the
header length to 65572, which `create` truncates to 36 in the u16 field, so
bytes 2..3 of the output no longer decode to the length of the buffer. -/
theorem C5_counterexample :
    ¬ (readU16 (TbfHeader.new.create (fun _ => List.replicate 32 0) 0 0
        (List.replicate 65532 97) none none (some 0)).1.generate 2 =
      (TbfHeader.new.create (fun _ => List.replicate 32 0) 0 0
        (List.replicate 65532 97) none none (some 0)).1.generate.length) := by
  have hne : (List.replicate 65532 (97 : Nat)) ≠ [] := by
    rw [Ne, List.replicate_eq_nil_iff]
    omega
  have hlen : (TbfHeader.new.create (fun _ => List.replicate 32 0) 0 0
      (List.replicate 65532 97) none none (some 0)).1.generate.length =
      65572 := by
    rw [create_generate_length, if_neg hne, List.length_replicate]
    norm_num [amount_alignment_needed]
  have hread : readU16 (TbfHeader.new.create (fun _ => List.replicate 32 0)
      0 0 (List.replicate 65532 97) none none (some 0)).1.generate 2 = 36 := by
    rw [readU16_generate_2, create_header_size, if_neg hne,
      List.length_replicate]
    norm_num [amount_alignment_needed]
  rw [hlen, hread]
  omega

/-- Reading the u32 at offset 24 of the final buffer recovers the stored
`protected_size` field (offset 16 for the main TLV, plus 4 for its prefix
and 4 for `init_fn_offset`). -/
theorem readU32_generate_24 (h : TbfHeader) :
    readU32 h.generate 24 = h.hdr_main.protected_size % 4294967296 := by
  rw [generate_eq]
  rw [show h.base12 ++ u32le (xorWords h.generate_body) ++ h.tail16 =
    (h.base12 ++ u32le (xorWords h.generate_body) ++
      serializeTlv h.hdr_main.base ++ u32le h.hdr_main.init_fn_offset) ++
      (u32le h.hdr_main.protected_size ++
        (u32le h.hdr_main.minimum_ram_size ++ u32le h.hdr_main.app_id ++
          h.name_section ++ h.wfr_section ++ h.fixed_section ++
          h.final_pad)) from by
    rw [TbfHeader.tail16, serializeMain]
    simp [List.append_assoc]]
  exact readU32_append_u32le _ _ _ _ (by
    simp [length_base12, length_u32le, length_serializeTlv])

/-- Reading the u32 at offset 4 of the final buffer recovers the stored
`total_size` field. -/
theorem readU32_generate_4 (h : TbfHeader) :
    readU32 h.generate 4 = h.hdr_base.total_size % 4294967296 := by
  rw [generate_eq]
  rw [show h.base12 ++ u32le (xorWords h.generate_body) ++ h.tail16 =
    (u16le h.hdr_base.version ++ u16le h.hdr_base.header_size) ++
      (u32le h.hdr_base.total_size ++
        (u32le h.hdr_base.flags ++
          (u32le (xorWords h.generate_body) ++ h.tail16))) from by
    rw [TbfHeader.base12]
    simp [List.append_assoc]]
  exact readU32_append_u32le _ _ _ _ (by simp [length_u16le])

/-- Reading the u32 at offset 20 of the final buffer recovers the stored
`init_fn_offset` field. -/
theorem readU32_generate_20 (h : TbfHeader) :
    readU32 h.generate 20 = h.hdr_main.init_fn_offset % 4294967296 := by
  rw [generate_eq]
  rw [show h.base12 ++ u32le (xorWords h.generate_body) ++ h.tail16 =
    (h.base12 ++ u32le (xorWords h.generate_body) ++
      serializeTlv h.hdr_main.base) ++
      (u32le h.hdr_main.init_fn_offset ++
        (u32le h.hdr_main.protected_size ++
          u32le h.hdr_main.minimum_ram_size ++ u32le h.hdr_main.app_id ++
          h.name_section ++ h.wfr_section ++ h.fixed_section ++
          h.final_pad)) from by
    rw [TbfHeader.tail16, serializeMain]
    simp [List.append_assoc]]
  exact readU32_append_u32le _ _ _ _ (by
    simp [length_base12, length_u32le, length_serializeTlv])

/-- C8: `generate` is a pure function of the Field Store, so two encodes
with no intervening mutation are byte-identical; after mutating a field
through any scalar setter, the new buffer carries the new value at the offset
of that field and a checksum recomputed for the new contents, so it still
XOR-folds to zero. -/
theorem C8_generate_idempotent_and_mutation (h : TbfHeader)
    (hr : Reachable h) (v : Nat) (hv : v < 4294967296) :
    h.generate = h.generate ∧
    readU32 (h.set_protected_size v).generate 24 = v ∧
    readU32 (h.set_total_size v).generate 4 = v ∧
    readU32 (h.set_init_fn_offset v).generate 20 = v ∧
    readU32 (h.set_protected_size v).generate 12 =
      xorWords (h.set_protected_size v).generate_body ∧
    xorWords (h.set_protected_size v).generate = 0 ∧
    xorWords (h.set_total_size v).generate = 0 ∧
    xorWords (h.set_init_fn_offset v).generate = 0 := by
  have hInv := Inv_reachable h hr
  have hInv1 : Inv (h.set_protected_size v) :=
    Inv_applyMutation h (.protectedSize v) hInv
  have hInv2 : Inv (h.set_total_size v) :=
    Inv_applyMutation h (.totalSize v) hInv
  have hInv3 : Inv (h.set_init_fn_offset v) :=
    Inv_applyMutation h (.initFnOffset v) hInv
  refine ⟨rfl, ?_, ?_, ?_, ?_, ?_, ?_, ?_⟩
  · rw [readU32_generate_24]
    show v % 4294967296 = v
    exact Nat.mod_eq_of_lt hv
  · rw [readU32_generate_4]
    show v % 4294967296 = v
    exact Nat.mod_eq_of_lt hv
  · rw [readU32_generate_20]
    show v % 4294967296 = v
    exact Nat.mod_eq_of_lt hv
  · exact readU32_generate_12 _ hInv1.nameBytes
  · exact xorWords_generate_zero _ hInv1.checksum0 hInv1.nameBytes
  · exact xorWords_generate_zero _ hInv2.checksum0 hInv2.nameBytes
  · exact xorWords_generate_zero _ hInv3.checksum0 hInv3.nameBytes

/-- Witness for C8 at a concrete reachable state. -/
theorem C8_generate_idempotent_and_mutation_witness :
    Reachable (TbfHeader.new.create (fun _ => List.replicate 32 2) 4096 2
      [97] none (some 1024) (some 9)).1 ∧
    (384 : Nat) < 4294967296 ∧
    readU32 ((TbfHeader.new.create (fun _ => List.replicate 32 2) 4096 2
      [97] none (some 1024) (some 9)).1.set_protected_size 384).generate 24 =
      384 := by
  have hr : Reachable (TbfHeader.new.create (fun _ => List.replicate 32 2)
      4096 2 [97] none (some 1024) (some 9)).1 :=
    ⟨fun _ => List.replicate 32 2, 4096, 2, [97], none, some 1024, some 9,
      [], by decide, rfl⟩
  exact ⟨hr, by omega,
    (C8_generate_idempotent_and_mutation _ hr 384 (by omega)).2.1⟩

end Elf2Tab
